import Mathlib

/- Shallow embedding of the iffk-planner application core: the scoring
   average and score upsert (src/app.py), the overview ranking
   (src/app.py), serial-number and programme-id generation and the
   sheet-replacement protocol (src/programme_manager.py), and the image
   upload response handling (src/image_uploader.py). -/

namespace IFFK

/-- Decimal digits of a natural number, most significant first: the
characters of Python `str(n)`. -/
def decDigits (n : ℕ) : List Char :=
  if _h : n < 10 then [Nat.digitChar n]
  else decDigits (n / 10) ++ [Nat.digitChar (n % 10)]
decreasing_by exact Nat.div_lt_self (by omega) (by omega)

/-- Python `str(n)` for a natural number. -/
def pyNatStr (n : ℕ) : String := String.mk (decDigits n)

/-- Python `str.zfill(w)`: pad the string with leading zero characters up to
width `w` (serial numbers are positive, so no sign handling is needed). -/
def zfill (s : String) (w : ℕ) : String :=
  String.mk (List.replicate (w - s.length) '0' ++ s.data)

/-- src/programme_manager.py, `generate_programme_id`: the category code is
`CATEGORY_CODES.get(category, "X")` and the id is the code followed by
`str(sl_no).zfill(3)`.  The category-to-code mapping is a JSON resource
loaded at startup and is abstracted as a lookup function. -/
def generate_programme_id (codes : String → Option String)
    (category : String) (sl_no : ℕ) : String :=
  (codes category).getD "X" ++ zfill (pyNatStr sl_no) 3

/-- Numeric value of a decimal digit character. -/
def charVal (c : Char) : ℕ := c.toNat - 48

/-- Parse a list of decimal digit characters back into a natural number;
a left inverse of `decDigits` used to reason about programme ids. -/
def parseDigits (l : List Char) : ℕ :=
  l.foldl (fun acc c => 10 * acc + charVal c) 0

/-- A spreadsheet cell value as handled by the app: strings, integers and
booleans (`get_all_records` parses sheet cells into these). -/
inductive PyVal
  | s (v : String)
  | i (v : ℤ)
  | b (v : Bool)
deriving DecidableEq

/-- The CATEGORY field of a sheet row.  The Films and Talks sheets keep
CATEGORY in the first column: the header order matches the append order of
`add_programme_entry`, which writes the category first. -/
def rowCategory (r : List PyVal) : Option PyVal := r.head?

/-- src/programme_manager.py, `generate_sl_no`: read all records of the
sheet, keep the rows whose CATEGORY equals the target category, and return
their count plus one. -/
def generate_sl_no (rows : List (List PyVal)) (category : String) : ℕ :=
  (rows.filter (fun r => rowCategory r == some (PyVal.s category))).length + 1

/-- src/app.py lines 289-291 (identically lines 256-258): keep the scores
greater than zero; the average is their sum divided by their count, or `0`
when none remain.  Rationals stand in for Python floats. -/
def computeAverage (scores : List ℤ) : ℚ :=
  let valid := scores.filter (fun s => decide (0 < s))
  if valid.length = 0 then 0 else (valid.sum : ℚ) / (valid.length : ℚ)

/-- One row of the Programme Selection sheet: the `new_entry` dict built in
src/app.py lines 295-304. -/
structure ScoreRecord where
  programmeId : String
  synopsis : ℤ
  trailer : ℤ
  directorProfile : ℤ
  writerProfile : ℤ
  letterboxdReviews : ℤ
  averageScore : ℚ
  isSelected : Bool
deriving DecidableEq

/-- src/app.py lines 306-309: when the selection set is non-empty, drop the
rows carrying the same PROGRAMME_ID; then concatenate the new entry at the
end. -/
def upsertScore (records : List ScoreRecord) (newRec : ScoreRecord) : List ScoreRecord :=
  (if records.isEmpty then records
   else records.filter (fun r => r.programmeId != newRec.programmeId)) ++ [newRec]

/-- The Score Record invariant: at most one record per programme id. -/
def atMostOnePerId (records : List ScoreRecord) : Prop :=
  ∀ pid : String, (records.filter (fun r => r.programmeId == pid)).length ≤ 1

/-- A worksheet: the header row and the data rows (sheet rows 2 onward),
each row a list of cell strings. -/
structure Sheet where
  header : List String
  rows : List (List String)
deriving DecidableEq

/-- Clearing one row of the range A2:Z1000 blanks its first 26 cells
(columns A through Z) and leaves any further cells untouched. -/
def clearRowAZ (r : List String) : List String :=
  (r.take 26).map (fun _ => "") ++ r.drop 26

/-- sheet.batch_clear(["A2:Z1000"]) (src/programme_manager.py line 186):
blanks columns A through Z of sheet rows 2 through 1000, that is the first
26 cells of the first 999 data rows.  The header row, rows beyond 1000 and
columns beyond Z are untouched. -/
def batchClearA2Z1000 (rows : List (List String)) : List (List String) :=
  (rows.take 999).map clearRowAZ ++ rows.drop 999

/-- Python `str()` of a cell value, as applied by `df.astype(str)`. -/
def pyStr : PyVal → String
  | .s v => v
  | .i v => if v < 0 then "-" ++ pyNatStr v.natAbs else pyNatStr v.natAbs
  | .b true => "True"
  | .b false => "False"

/-- src/programme_manager.py, `replace_sheet_data`: clear the range
A2:Z1000, then, only when the dataframe is non-empty, append its rows
rendered as strings (`df.astype(str)`); for an empty dataframe it logs a
warning and returns after the clear. -/
def replace_sheet_data (sheet : Sheet) (df : List (List PyVal)) : Sheet :=
  let cleared := batchClearA2Z1000 sheet.rows
  if df.isEmpty then { sheet with rows := cleared }
  else { sheet with rows := cleared ++ df.map (fun r => r.map pyStr) }

/-- A data row counts as present when it still has a non-empty cell. -/
def dataRowCount (s : Sheet) : ℕ :=
  (s.rows.filter (fun r => !r.all (fun c => c == ""))).length

/-- Typed failures of `add_programme_entry`: a required field missing from
the submitted data (a Python KeyError on `data[...]`) or a failing sheet
append. -/
inductive PMError
  | schemaError (field : String)
  | storeWriteError
deriving DecidableEq

/-- Python `data["k"]`: the value when the key is present, a SchemaError
(KeyError) when it is absent. -/
def getField (field : String) : Option α → Except PMError α
  | some v => .ok v
  | none => .error (.schemaError field)

/-- An add-entry submission (the dicts built in src/app.py lines 199-218);
fields absent from the dict are `none`. -/
structure EntryData where
  category : Option String
  topic : Option String
  duration : Option ℤ
  image_url : Option String
  international_title : Option String
  original_title : Option String
  year : Option ℤ
  runtime : Option ℤ
  language : Option String
  country : Option String
  director : Option String
  synopsis : Option String
  letterboxd_url : Option String
deriving DecidableEq

/-- The submission dict built for a Talks entry (src/app.py lines 199-204). -/
def mkTalksData (c topic : String) (dur : ℤ) (url : String) : EntryData :=
  ⟨some c, some topic, some dur, some url,
   none, none, none, none, none, none, none, none, none⟩

/-- The submission dict built for a film entry (src/app.py lines 206-218). -/
def mkFilmData (c intl orig : String) (yr rt : ℤ)
    (lang ctry dir syn url lbx : String) : EntryData :=
  ⟨some c, none, none, some url, some intl, some orig, some yr, some rt,
   some lang, some ctry, some dir, some syn, some lbx⟩

/-- The two sheets `add_programme_entry` can write to. -/
structure SheetsState where
  films : List (List PyVal)
  talks : List (List PyVal)
deriving DecidableEq

/-- src/programme_manager.py, `add_programme_entry`.  The target sheet is
the Talks sheet exactly when the category is "Talks & Conversations"; the
serial number comes from a fresh read of that sheet; field accesses follow
the source order, so a missing key raises before the append is attempted.
`appendFails` models whether the backing `sheet.append_row` call fails
(StoreWriteError). -/
def add_programme_entry (appendFails : Bool) (codes : String → Option String)
    (st : SheetsState) (data : EntryData) : Except PMError (String × SheetsState) :=
  Except.bind (getField "category" data.category) fun category =>
  let isTalks := category == "Talks & Conversations"
  let sheetRows := if isTalks then st.talks else st.films
  let sl_no := generate_sl_no sheetRows category
  let programme_id := generate_programme_id codes category sl_no
  let rowE : Except PMError (List PyVal) :=
    if isTalks then
      Except.bind (getField "topic" data.topic) fun topic =>
      Except.bind (getField "duration" data.duration) fun duration =>
      Except.bind (getField "image_url" data.image_url) fun image_url =>
      Except.ok [PyVal.s category, PyVal.i (sl_no : ℤ), PyVal.s programme_id,
        PyVal.s topic, PyVal.i duration, PyVal.s image_url]
    else
      Except.bind (getField "international_title" data.international_title) fun intl =>
      Except.bind (getField "original_title" data.original_title) fun orig =>
      Except.bind (getField "year" data.year) fun yr =>
      Except.bind (getField "runtime" data.runtime) fun rt =>
      Except.bind (getField "language" data.language) fun lang =>
      Except.bind (getField "country" data.country) fun ctry =>
      Except.bind (getField "director" data.director) fun dir =>
      Except.bind (getField "synopsis" data.synopsis) fun syn =>
      Except.bind (getField "image_url" data.image_url) fun image_url =>
      Except.bind (getField "letterboxd_url" data.letterboxd_url) fun lbx =>
      Except.ok [PyVal.s category, PyVal.i (sl_no : ℤ), PyVal.s programme_id,
        PyVal.s intl, PyVal.s orig, PyVal.i yr, PyVal.i rt, PyVal.s lang,
        PyVal.s ctry, PyVal.s dir, PyVal.s syn, PyVal.s image_url, PyVal.s lbx]
  Except.bind rowE fun row =>
  if appendFails then Except.error PMError.storeWriteError
  else if isTalks then
    Except.ok (programme_id, { st with talks := st.talks ++ [row] })
  else
    Except.ok (programme_id, { st with films := st.films ++ [row] })

/-- Whether every field that `add_programme_entry` reads from the submitted
data is present: the category always, then per variant the Talks fields or
the film fields. -/
def requiredPresent (d : EntryData) : Bool :=
  match d.category with
  | none => false
  | some c =>
    if c == "Talks & Conversations" then
      d.topic.isSome && d.duration.isSome && d.image_url.isSome
    else
      d.international_title.isSome && d.original_title.isSome &&
      d.year.isSome && d.runtime.isSome && d.language.isSome &&
      d.country.isSome && d.director.isSome && d.synopsis.isSome &&
      d.image_url.isSome && d.letterboxd_url.isSome

/-- The parsed imgbb API response seen by `_handle_response`: the HTTP
status code, the truthiness of the body's success flag
(`data.get("success")`), and the body's `data.url` field when present. -/
structure ImgbbResponse where
  status_code : ℤ
  success : Bool
  data_url : Option String
deriving DecidableEq

/-- Failures of the image upload: a non-200 HTTP status, an API-level
failure flag in the body, or a success body missing the url field. -/
inductive UploadError
  | httpStatus
  | apiFailure
  | missingUrl
deriving DecidableEq

/-- src/image_uploader.py, `_handle_response`: reject a status other than
200, then reject a falsy success flag, then return `data["data"]["url"]`. -/
def handle_response (r : ImgbbResponse) : Except UploadError String :=
  if r.status_code ≠ 200 then .error .httpStatus
  else if r.success = false then .error .apiFailure
  else match r.data_url with
    | some u => .ok u
    | none => .error .missingUrl

/-- One row of the Scoring Overview table (the films sheet left-merged with
the Programme Selection sheet, src/app.py line 336).  `averageScore` and
`isSelected` are `none` when the film has no selection record (NaN after
the left merge); the remaining fields are display payload. -/
structure OverviewEntry where
  isSelected : Option Bool
  averageScore : Option ℚ
  year : ℤ
  runningTime : ℤ
  programmeId : String
  category : String
  intlTitle : String
  origTitle : String
deriving DecidableEq

/-- Sort rank of the IS_SELECTED key: descending (selected first), with a
missing value (NaN) last — pandas `na_position` defaults to "last". -/
def selRank : Option Bool → ℕ
  | some true => 0
  | some false => 1
  | none => 2

/-- Presence rank of AVERAGE_SCORE: present values first, NaN last. -/
def avgRank : Option ℚ → ℕ
  | some _ => 0
  | none => 1

/-- Value key of AVERAGE_SCORE, negated for the descending sort. -/
def avgVal : Option ℚ → ℚ
  | some q => -q
  | none => 0

/-- The lexicographic sort key realising src/app.py lines 337-338,
merged_df.sort_values(["IS_SELECTED", "AVERAGE_SCORE", "YEAR",
"RUNNING_TIME", "PROGRAMME_ID"], ascending=[False, False, False, True,
True]): descending keys are negated or rank-encoded, and a missing value
ranks after every present value of its key. -/
def sortKey (e : OverviewEntry) :
    ℕ ×ₗ (ℕ ×ₗ (ℚ ×ₗ (ℤ ×ₗ (ℤ ×ₗ String)))) :=
  toLex (selRank e.isSelected, toLex (avgRank e.averageScore,
    toLex (avgVal e.averageScore,
      toLex (-e.year, toLex (e.runningTime, e.programmeId)))))

/-- The comparison realised by the overview sort. -/
def entryLE (a b : OverviewEntry) : Prop := sortKey a ≤ sortKey b

instance : DecidableRel entryLE :=
  fun a b => inferInstanceAs (Decidable (sortKey a ≤ sortKey b))

instance : IsTotal OverviewEntry entryLE :=
  ⟨fun a b => le_total (sortKey a) (sortKey b)⟩

instance : IsTrans OverviewEntry entryLE :=
  ⟨fun _ _ _ h h' => le_trans h h'⟩

/-- pandas `sort_values` over several keys is a stable lexicographic sort
(numpy lexsort); it is embedded as a stable insertion sort by `entryLE`. -/
def rankOrdering (l : List OverviewEntry) : List OverviewEntry :=
  List.insertionSort entryLE l

/-- Strictly-before on the IS_SELECTED key in plain terms: descending with
missing last. -/
def selStrictBefore : Option Bool → Option Bool → Prop
  | some true, some false => True
  | some true, none => True
  | some false, none => True
  | _, _ => False

/-- Strictly-before on the AVERAGE_SCORE key in plain terms: descending
with missing last. -/
def avgStrictBefore : Option ℚ → Option ℚ → Prop
  | some x, some y => y < x
  | some _, none => True
  | _, _ => False

/-- The overview key order written out in the spec's terms: descending
isSelected, then descending averageScore, then descending year, then
ascending runningTime, then ascending programmeId, a missing value sorting
after every present value of its key. -/
def keyOrder (a b : OverviewEntry) : Prop :=
  selStrictBefore a.isSelected b.isSelected ∨
  (a.isSelected = b.isSelected ∧
    (avgStrictBefore a.averageScore b.averageScore ∨
      (a.averageScore = b.averageScore ∧
        (b.year < a.year ∨
          (a.year = b.year ∧
            (a.runningTime < b.runningTime ∨
              (a.runningTime = b.runningTime ∧
                a.programmeId ≤ b.programmeId)))))))

/-- Agreement on all five sort keys. -/
def sameKeys (a b : OverviewEntry) : Prop :=
  a.isSelected = b.isSelected ∧ a.averageScore = b.averageScore ∧
  a.year = b.year ∧ a.runningTime = b.runningTime ∧
  a.programmeId = b.programmeId

/-- Modelled from the spec claim's words for comparison with the code: the
same sort but with a missing AVERAGE_SCORE treated as the value 0 instead
of being placed after the present values. -/
def sortKeyClaimed (e : OverviewEntry) : ℕ ×ₗ (ℚ ×ₗ (ℤ ×ₗ (ℤ ×ₗ String))) :=
  toLex (selRank e.isSelected, toLex (-(e.averageScore.getD 0),
    toLex (-e.year, toLex (e.runningTime, e.programmeId))))

/-- The comparison the claim describes (missing averageScore as 0). -/
def entryLEClaimed (a b : OverviewEntry) : Prop :=
  sortKeyClaimed a ≤ sortKeyClaimed b

instance : DecidableRel entryLEClaimed :=
  fun a b => inferInstanceAs (Decidable (sortKeyClaimed a ≤ sortKeyClaimed b))

/-- The ordering the claim describes, as the same stable sort over the
claimed comparison. -/
def rankOrderingClaimed (l : List OverviewEntry) : List OverviewEntry :=
  List.insertionSort entryLEClaimed l

theorem decDigits_of_lt (n : ℕ) (h : n < 10) : decDigits n = [Nat.digitChar n] := by
  rw [decDigits.eq_def, dif_pos h]

theorem decDigits_of_ge (n : ℕ) (h : 10 ≤ n) :
    decDigits n = decDigits (n / 10) ++ [Nat.digitChar (n % 10)] := by
  rw [decDigits.eq_def, dif_neg (by omega)]

theorem charVal_digitChar (n : ℕ) (h : n < 10) : charVal (Nat.digitChar n) = n := by
  interval_cases n <;> rfl

theorem parseDigits_from (l : List Char) :
    ∀ a : ℕ, l.foldl (fun acc c => 10 * acc + charVal c) a
      = a * 10 ^ l.length + parseDigits l := by
  induction l with
  | nil => intro a; simp [parseDigits]
  | cons c t ih =>
    intro a
    have h1 : (c :: t).foldl (fun acc x => 10 * acc + charVal x) a
        = t.foldl (fun acc x => 10 * acc + charVal x) (10 * a + charVal c) := rfl
    have h2 : parseDigits (c :: t)
        = t.foldl (fun acc x => 10 * acc + charVal x) (10 * 0 + charVal c) := rfl
    rw [h1, h2, ih, ih]
    simp only [List.length_cons, pow_succ]
    ring

theorem parseDigits_decDigits (n : ℕ) : parseDigits (decDigits n) = n := by
  induction n using Nat.strong_induction_on with
  | _ n ih =>
    by_cases h : n < 10
    · rw [decDigits_of_lt n h]
      simp [parseDigits, charVal_digitChar n h]
    · rw [decDigits_of_ge n (by omega), parseDigits, List.foldl_append]
      have hrec := ih (n / 10) (Nat.div_lt_self (by omega) (by omega))
      rw [show (decDigits (n / 10)).foldl (fun acc c => 10 * acc + charVal c) 0
          = parseDigits (decDigits (n / 10)) from rfl, hrec]
      simp [charVal_digitChar (n % 10) (Nat.mod_lt n (by omega))]
      omega

theorem parseDigits_replicate_zero (k : ℕ) (l : List Char) :
    parseDigits (List.replicate k '0' ++ l) = parseDigits l := by
  induction k with
  | zero => simp
  | succ m ih =>
    have : List.replicate (m + 1) '0' ++ l = '0' :: (List.replicate m '0' ++ l) := by
      simp [List.replicate_succ]
    rw [this]
    show (List.replicate m '0' ++ l).foldl
        (fun acc c => 10 * acc + charVal c) (10 * 0 + charVal '0') = parseDigits l
    have h0 : 10 * 0 + charVal '0' = 0 := rfl
    rw [h0]
    exact ih

theorem zfill_pyNatStr_inj (m n : ℕ)
    (h : (zfill (pyNatStr m) 3).data = (zfill (pyNatStr n) 3).data) : m = n := by
  have h' : List.replicate (3 - (decDigits m).length) '0' ++ decDigits m
      = List.replicate (3 - (decDigits n).length) '0' ++ decDigits n := h
  have := congrArg parseDigits h'
  rwa [parseDigits_replicate_zero, parseDigits_replicate_zero,
    parseDigits_decDigits, parseDigits_decDigits] at this

theorem decDigits_length (k : ℕ) :
    ∀ n : ℕ, 10 ^ k ≤ n → k + 1 ≤ (decDigits n).length := by
  induction k with
  | zero =>
    intro n _
    by_cases h : n < 10
    · rw [decDigits_of_lt n h]; simp
    · rw [decDigits_of_ge n (by omega)]; simp
  | succ m ih =>
    intro n hn
    have h10 : 10 ≤ n := le_trans (by calc 10 = 10 ^ 1 := by norm_num
                                         _ ≤ 10 ^ (m + 1) := Nat.pow_le_pow_right (by omega) (by omega)) hn
    rw [decDigits_of_ge n h10]
    have hdiv : 10 ^ m ≤ n / 10 := by
      rw [Nat.le_div_iff_mul_le (by omega)]
      calc 10 ^ m * 10 = 10 ^ (m + 1) := by ring
        _ ≤ n := hn
    have := ih (n / 10) hdiv
    simp only [List.length_append, List.length_cons, List.length_nil]
    omega

/-- C10: within a fixed category, distinct positive serial numbers give
distinct programme ids; serials of 1000 or more are rendered with their
full decimal digits, never truncated to three. -/
theorem generate_programme_id_injective (codes : String → Option String)
    (category : String) (m n : ℕ) (hm : 1 ≤ m) (hn : 1 ≤ n) (hmn : m ≠ n) :
    generate_programme_id codes category m ≠ generate_programme_id codes category n ∧
    (1000 ≤ n → generate_programme_id codes category n
        = (codes category).getD "X" ++ pyNatStr n) := by
  constructor
  · intro h
    apply hmn
    apply zfill_pyNatStr_inj
    simp only [generate_programme_id] at h
    have hd := congrArg String.data h
    rw [String.data_append, String.data_append] at hd
    exact List.append_cancel_left hd
  · intro h1000
    have hlen : 3 ≤ (decDigits n).length := by
      have := decDigits_length 3 n (by omega)
      omega
    have hz : 3 - (decDigits n).length = 0 := by omega
    simp [generate_programme_id, zfill, pyNatStr, hz]

/-- Witness for C10 at serials 7 and 1007 of an unmapped category. -/
theorem generate_programme_id_injective_witness :
    generate_programme_id (fun _ => none) "Documentary" 7
      ≠ generate_programme_id (fun _ => none) "Documentary" 1007 ∧
    generate_programme_id (fun _ => none) "Documentary" 1007
      = "X" ++ pyNatStr 1007 := by
  have h := generate_programme_id_injective (fun _ => none) "Documentary" 7 1007
    (by decide) (by decide) (by decide)
  exact ⟨h.1, h.2 (by decide)⟩

/-- C6: the programme id is the category's code (falling back to "X" for a
category outside the mapping) followed by the serial number zero-padded to
three digits; code "F" with serial 7 gives "F007", an unknown category with
serial 1 gives "X001"; the result depends only on the mapping's value at
the category. -/
theorem generate_programme_id_spec (codes codes' : String → Option String)
    (category : String) (n : ℕ) :
    (∀ code, codes category = some code →
      generate_programme_id codes category n = code ++ zfill (pyNatStr n) 3) ∧
    (codes category = none →
      generate_programme_id codes category n = "X" ++ zfill (pyNatStr n) 3) ∧
    (codes category = some "F" → generate_programme_id codes category 7 = "F007") ∧
    (codes category = none → generate_programme_id codes category 1 = "X001") ∧
    (codes category = codes' category →
      generate_programme_id codes category n = generate_programme_id codes' category n) := by
  refine ⟨?_, ?_, ?_, ?_, ?_⟩
  · intro code hc; simp [generate_programme_id, hc]
  · intro hc; simp [generate_programme_id, hc]
  · intro hc
    simp only [generate_programme_id, hc, Option.getD_some]
    rw [pyNatStr, decDigits_of_lt 7 (by omega)]
    decide
  · intro hc
    simp only [generate_programme_id, hc, Option.getD_none]
    rw [pyNatStr, decDigits_of_lt 1 (by omega)]
    decide
  · intro hc; simp [generate_programme_id, hc]

/-- Witness for C6 with a mapping sending every category to code "F". -/
theorem generate_programme_id_spec_witness :
    generate_programme_id (fun _ => some "F") "Feature Film" 7 = "F007" ∧
    generate_programme_id (fun _ => none) "Unknown" 1 = "X001" :=
  ⟨(generate_programme_id_spec (fun _ => some "F") (fun _ => none) "Feature Film" 7).2.2.1 rfl,
   (generate_programme_id_spec (fun _ => none) (fun _ => none) "Unknown" 1).2.2.2.1 rfl⟩

/-- C1: over five criterion scores each in the range 0 to 5, the average is
0 when every criterion is 0, and otherwise it is the arithmetic mean of
exactly the criteria greater than 0 (zero scores are excluded, not averaged
in as zeros). -/
theorem computeAverage_spec (a b c d e : ℤ)
    (ha : 0 ≤ a ∧ a ≤ 5) (hb : 0 ≤ b ∧ b ≤ 5) (hc : 0 ≤ c ∧ c ≤ 5)
    (hd : 0 ≤ d ∧ d ≤ 5) (he : 0 ≤ e ∧ e ≤ 5) :
    ((a = 0 ∧ b = 0 ∧ c = 0 ∧ d = 0 ∧ e = 0) → computeAverage [a, b, c, d, e] = 0) ∧
    (¬(a = 0 ∧ b = 0 ∧ c = 0 ∧ d = 0 ∧ e = 0) →
      [a, b, c, d, e].filter (fun s => decide (0 < s)) ≠ [] ∧
      computeAverage [a, b, c, d, e] *
          (([a, b, c, d, e].filter (fun s => decide (0 < s))).length : ℚ)
        = (([a, b, c, d, e].filter (fun s => decide (0 < s))).sum : ℚ)) := by
  constructor
  · rintro ⟨rfl, rfl, rfl, rfl, rfl⟩
    decide
  · intro hne
    have hpos : 0 < a ∨ 0 < b ∨ 0 < c ∨ 0 < d ∨ 0 < e := by omega
    have hmem : ∃ x, x ∈ [a, b, c, d, e].filter (fun s => decide (0 < s)) := by
      rcases hpos with h | h | h | h | h
      · exact ⟨a, List.mem_filter.mpr ⟨by simp, by simpa⟩⟩
      · exact ⟨b, List.mem_filter.mpr ⟨by simp, by simpa⟩⟩
      · exact ⟨c, List.mem_filter.mpr ⟨by simp, by simpa⟩⟩
      · exact ⟨d, List.mem_filter.mpr ⟨by simp, by simpa⟩⟩
      · exact ⟨e, List.mem_filter.mpr ⟨by simp, by simpa⟩⟩
    obtain ⟨x, hx⟩ := hmem
    have hnil : [a, b, c, d, e].filter (fun s => decide (0 < s)) ≠ [] :=
      List.ne_nil_of_mem hx
    refine ⟨hnil, ?_⟩
    have hlen : ([a, b, c, d, e].filter (fun s => decide (0 < s))).length ≠ 0 := by
      simpa [List.length_eq_zero] using hnil
    simp only [computeAverage]
    rw [if_neg hlen, div_mul_cancel₀]
    exact_mod_cast hlen

/-- Witness for C1 at the spec's example scores 3, 4, 0, 0, 0. -/
theorem computeAverage_spec_witness :
    [(3 : ℤ), 4, 0, 0, 0].filter (fun s => decide (0 < s)) ≠ [] ∧
    computeAverage [3, 4, 0, 0, 0] *
        (([(3 : ℤ), 4, 0, 0, 0].filter (fun s => decide (0 < s))).length : ℚ)
      = (([(3 : ℤ), 4, 0, 0, 0].filter (fun s => decide (0 < s))).sum : ℚ) :=
  (computeAverage_spec 3 4 0 0 0 (by decide) (by decide) (by decide)
    (by decide) (by decide)).2 (by decide)

theorem upsertScore_eq (l : List ScoreRecord) (n : ScoreRecord) :
    upsertScore l n = l.filter (fun r => r.programmeId != n.programmeId) ++ [n] := by
  cases l with
  | nil => simp [upsertScore]
  | cons x t => simp [upsertScore]

/-- C3: upserting leaves exactly one record for the new programme id,
holding the new values; the result does not depend on whether a prior
record for that id existed; the at-most-one-per-id invariant is preserved;
and two upserts under the same id leave one record with the second call's
values. -/
theorem upsertScore_spec (l : List ScoreRecord) (n a b : ScoreRecord) :
    (upsertScore l n).filter (fun r => r.programmeId == n.programmeId) = [n] ∧
    upsertScore l n
      = upsertScore (l.filter (fun r => r.programmeId != n.programmeId)) n ∧
    (atMostOnePerId l → atMostOnePerId (upsertScore l n)) ∧
    (a.programmeId = b.programmeId →
      upsertScore (upsertScore l a) b = upsertScore l b) := by
  refine ⟨?_, ?_, ?_, ?_⟩
  · rw [upsertScore_eq, List.filter_append, List.filter_filter]
    have h1 : l.filter (fun r =>
        (r.programmeId == n.programmeId) && (r.programmeId != n.programmeId)) = [] := by
      apply List.filter_eq_nil_iff.mpr
      intro r _
      simp [bne]
    rw [h1]
    simp
  · rw [upsertScore_eq, upsertScore_eq (l.filter _) n, List.filter_filter]
    simp
  · intro hinv pid
    rw [upsertScore_eq, List.filter_append, List.length_append]
    by_cases hpid : n.programmeId = pid
    · have h1 : (l.filter (fun r => r.programmeId != n.programmeId)).filter
          (fun r => r.programmeId == pid) = [] := by
        rw [List.filter_filter]
        apply List.filter_eq_nil_iff.mpr
        intro r _
        simp [bne, hpid]
      rw [h1]
      simp [hpid]
    · have h2 : [n].filter (fun r => r.programmeId == pid) = [] := by
        simp [hpid]
      rw [h2]
      have hsub : List.Sublist
          ((l.filter (fun r => r.programmeId != n.programmeId)).filter
            (fun r => r.programmeId == pid))
          (l.filter (fun r => r.programmeId == pid)) :=
        (List.filter_sublist l).filter _
      have := hsub.length_le
      have := hinv pid
      simp only [List.length_nil]
      omega
  · intro hab
    rw [upsertScore_eq l a, upsertScore_eq (l.filter _ ++ [a]) b, upsertScore_eq l b,
      List.filter_append, List.filter_filter]
    have h1 : [a].filter (fun r => r.programmeId != b.programmeId) = [] := by
      simp [hab]
    have h2 : l.filter (fun r =>
        (r.programmeId != b.programmeId) && (r.programmeId != a.programmeId))
        = l.filter (fun r => r.programmeId != b.programmeId) := by
      apply List.filter_congr
      intro r _
      rw [hab, Bool.and_self]
    rw [h1, h2]
    simp

/-- Witness for C3 on a one-record set and a same-id pair of upserts. -/
theorem upsertScore_spec_witness :
    atMostOnePerId (upsertScore [⟨"F001", 3, 4, 0, 0, 0, 7 / 2, false⟩]
      ⟨"F001", 5, 5, 5, 5, 5, 5, true⟩) ∧
    upsertScore (upsertScore [⟨"F001", 3, 4, 0, 0, 0, 7 / 2, false⟩]
        ⟨"F001", 1, 1, 1, 1, 1, 1, false⟩) ⟨"F001", 5, 5, 5, 5, 5, 5, true⟩
      = upsertScore [⟨"F001", 3, 4, 0, 0, 0, 7 / 2, false⟩]
        ⟨"F001", 5, 5, 5, 5, 5, 5, true⟩ := by
  have hinv : atMostOnePerId [(⟨"F001", 3, 4, 0, 0, 0, 7 / 2, false⟩ : ScoreRecord)] := by
    intro pid
    by_cases h : ("F001" == pid) = true <;> simp [List.filter, h]
  exact ⟨(upsertScore_spec [⟨"F001", 3, 4, 0, 0, 0, 7 / 2, false⟩]
      ⟨"F001", 5, 5, 5, 5, 5, 5, true⟩ ⟨"F001", 5, 5, 5, 5, 5, 5, true⟩
      ⟨"F001", 5, 5, 5, 5, 5, 5, true⟩).2.2.1 hinv,
    (upsertScore_spec [⟨"F001", 3, 4, 0, 0, 0, 7 / 2, false⟩]
      ⟨"F001", 5, 5, 5, 5, 5, 5, true⟩ ⟨"F001", 1, 1, 1, 1, 1, 1, false⟩
      ⟨"F001", 5, 5, 5, 5, 5, 5, true⟩).2.2.2 rfl⟩

/-- C5: the serial number over N rows of the target category and any other
rows is N + 1, unchanged by reordering the rows and by rows of other
categories. -/
theorem generate_sl_no_spec (rows rows' extra : List (List PyVal)) (C : String) (N : ℕ)
    (hN : (rows.filter (fun r => rowCategory r == some (PyVal.s C))).length = N)
    (hperm : rows.Perm rows')
    (hextra : ∀ r ∈ extra, ¬ rowCategory r = some (PyVal.s C)) :
    generate_sl_no rows C = N + 1 ∧
    generate_sl_no rows' C = N + 1 ∧
    generate_sl_no (rows ++ extra) C = N + 1 := by
  have hperm' : (rows.filter (fun r => rowCategory r == some (PyVal.s C))).length
      = (rows'.filter (fun r => rowCategory r == some (PyVal.s C))).length :=
    (hperm.filter _).length_eq
  have hnil : extra.filter (fun r => rowCategory r == some (PyVal.s C)) = [] := by
    apply List.filter_eq_nil_iff.mpr
    intro r hr
    simpa using hextra r hr
  refine ⟨by simp [generate_sl_no, hN], ?_, ?_⟩
  · rw [generate_sl_no, ← hperm', hN]
  · rw [generate_sl_no, List.filter_append, hnil, List.append_nil, hN]

/-- Witness for C5: two rows in category A, one in B, one extra row in C. -/
theorem generate_sl_no_spec_witness :
    generate_sl_no [[PyVal.s "A"], [PyVal.s "B"], [PyVal.s "A"]] "A" = 2 + 1 ∧
    generate_sl_no ([[PyVal.s "A"], [PyVal.s "B"], [PyVal.s "A"]] ++ [[PyVal.s "C"]]) "A"
      = 2 + 1 := by
  have h := generate_sl_no_spec [[PyVal.s "A"], [PyVal.s "B"], [PyVal.s "A"]]
    [[PyVal.s "A"], [PyVal.s "B"], [PyVal.s "A"]] [[PyVal.s "C"]] "A" 2
    (by decide) (List.Perm.refl _) (by decide)
  exact ⟨h.1, h.2.2⟩

/-- C4 failing input: a sheet whose single data row carries a value in
column AA, the 27th column.  `replace_sheet_data` with an empty row set
leaves that value behind — one data row remains instead of zero — because
the clear only covers A2:Z1000, although the code's own comments say it
clears all rows except the header over A2:ZZ. -/
theorem replace_sheet_data_bug :
    dataRowCount (replace_sheet_data ⟨["H"], [List.replicate 26 "x" ++ ["y"]]⟩ []) = 1 ∧
    (replace_sheet_data ⟨["H"], [List.replicate 26 "x" ++ ["y"]]⟩ []).rows
      = [List.replicate 26 "" ++ ["y"]] ∧
    (replace_sheet_data ⟨["H"], [List.replicate 26 "x" ++ ["y"]]⟩ []).header = ["H"] := by
  decide

/-- C9: the upload response handler fails on a status other than 200, fails
on a falsy API success flag, and on success returns the url taken from the
body's data.url field. -/
theorem handle_response_spec (r : ImgbbResponse) :
    (r.status_code ≠ 200 → handle_response r = .error UploadError.httpStatus) ∧
    (r.status_code = 200 → r.success = false →
      handle_response r = .error UploadError.apiFailure) ∧
    (∀ u, r.status_code = 200 → r.success = true → r.data_url = some u →
      handle_response r = .ok u) := by
  refine ⟨?_, ?_, ?_⟩ <;> intros <;> simp_all [handle_response]

/-- Witness for C9: a success response and a failed-status response. -/
theorem handle_response_spec_witness :
    handle_response ⟨200, true, some "https://i.ibb.co/img.jpg"⟩
      = .ok "https://i.ibb.co/img.jpg" ∧
    handle_response ⟨404, true, some "u"⟩ = .error UploadError.httpStatus :=
  ⟨(handle_response_spec _).2.2 _ rfl rfl rfl,
   (handle_response_spec _).1 (by decide)⟩

theorem except_bind_ok (a : α) (f : α → Except PMError β) :
    Except.bind (Except.ok a) f = f a := rfl

theorem except_bind_error (e : PMError) (f : α → Except PMError β) :
    Except.bind (Except.error e : Except PMError α) f = Except.error e := rfl

/-- C7: a validated submission goes to the Talks sheet exactly when its
category is "Talks & Conversations" and to the Films sheet otherwise; the
serial number comes from a fresh read of that sheet; the appended row's
field order is fixed per variant; and the computed programme id is
returned. -/
theorem add_programme_entry_spec (codes : String → Option String) (st : SheetsState)
    (c topic : String) (dur : ℤ) (url intl orig : String) (yr rt : ℤ)
    (lang ctry dir syn lbx : String) :
    (c = "Talks & Conversations" →
      add_programme_entry false codes st (mkTalksData c topic dur url)
        = .ok (generate_programme_id codes c (generate_sl_no st.talks c),
            { st with talks := st.talks ++
              [[PyVal.s c, PyVal.i (generate_sl_no st.talks c : ℤ),
                PyVal.s (generate_programme_id codes c (generate_sl_no st.talks c)),
                PyVal.s topic, PyVal.i dur, PyVal.s url]] })) ∧
    (c ≠ "Talks & Conversations" →
      add_programme_entry false codes st
          (mkFilmData c intl orig yr rt lang ctry dir syn url lbx)
        = .ok (generate_programme_id codes c (generate_sl_no st.films c),
            { st with films := st.films ++
              [[PyVal.s c, PyVal.i (generate_sl_no st.films c : ℤ),
                PyVal.s (generate_programme_id codes c (generate_sl_no st.films c)),
                PyVal.s intl, PyVal.s orig, PyVal.i yr, PyVal.i rt, PyVal.s lang,
                PyVal.s ctry, PyVal.s dir, PyVal.s syn, PyVal.s url,
                PyVal.s lbx]] })) := by
  constructor
  · intro h
    subst h
    simp [add_programme_entry, mkTalksData, getField, except_bind_ok]
  · intro h
    simp [add_programme_entry, mkFilmData, getField, except_bind_ok, beq_iff_eq, h]

/-- Witness for C7: one Talks submission and one film submission against an
empty workbook. -/
theorem add_programme_entry_spec_witness :
    add_programme_entry false (fun _ => some "T") ⟨[], []⟩
        (mkTalksData "Talks & Conversations" "AI" 60 "u")
      = .ok (generate_programme_id (fun _ => some "T") "Talks & Conversations"
              (generate_sl_no ([] : List (List PyVal)) "Talks & Conversations"),
          ⟨[], [] ++ [[PyVal.s "Talks & Conversations",
            PyVal.i (generate_sl_no ([] : List (List PyVal)) "Talks & Conversations" : ℤ),
            PyVal.s (generate_programme_id (fun _ => some "T") "Talks & Conversations"
              (generate_sl_no ([] : List (List PyVal)) "Talks & Conversations")),
            PyVal.s "AI", PyVal.i 60, PyVal.s "u"]]⟩) ∧
    add_programme_entry false (fun _ => some "F") ⟨[], []⟩
        (mkFilmData "Feature Film" "I" "O" 2025 120 "L" "C" "D" "S" "u" "lb")
      = .ok (generate_programme_id (fun _ => some "F") "Feature Film"
              (generate_sl_no ([] : List (List PyVal)) "Feature Film"),
          ⟨[] ++ [[PyVal.s "Feature Film",
            PyVal.i (generate_sl_no ([] : List (List PyVal)) "Feature Film" : ℤ),
            PyVal.s (generate_programme_id (fun _ => some "F") "Feature Film"
              (generate_sl_no ([] : List (List PyVal)) "Feature Film")),
            PyVal.s "I", PyVal.s "O", PyVal.i 2025, PyVal.i 120, PyVal.s "L",
            PyVal.s "C", PyVal.s "D", PyVal.s "S", PyVal.s "u", PyVal.s "lb"]], []⟩) :=
  ⟨(add_programme_entry_spec (fun _ => some "T") ⟨[], []⟩ "Talks & Conversations"
      "AI" 60 "u" "" "" 0 0 "" "" "" "" "").1 rfl,
   (add_programme_entry_spec (fun _ => some "F") ⟨[], []⟩ "Feature Film"
      "" 0 "u" "I" "O" 2025 120 "L" "C" "D" "S" "lb").2 (by decide)⟩

/-- C8: the entry append fails with a StoreWriteError exactly when every
required field is present and the backing append fails, and with a
SchemaError exactly when a required field is absent; every failure is a
typed error result, never swallowed. -/
theorem add_programme_entry_errors (appendFails : Bool) (codes : String → Option String)
    (st : SheetsState) (data : EntryData) :
    (add_programme_entry appendFails codes st data = .error PMError.storeWriteError
      ↔ (requiredPresent data = true ∧ appendFails = true)) ∧
    ((∃ f, add_programme_entry appendFails codes st data = .error (PMError.schemaError f))
      ↔ requiredPresent data = false) := by
  obtain ⟨cat, top, dur, img, intl, orig, yr, rt, lang, ctry, dir, syn, lbx⟩ := data
  cases cat with
  | none => simp [add_programme_entry, getField, requiredPresent, except_bind_ok, except_bind_error]
  | some c =>
    by_cases hc : c = "Talks & Conversations"
    · cases top with
      | none => simp [add_programme_entry, getField, requiredPresent, except_bind_ok, except_bind_error, beq_iff_eq, hc]
      | some topv =>
        cases dur with
        | none => simp [add_programme_entry, getField, requiredPresent, except_bind_ok, except_bind_error, beq_iff_eq, hc]
        | some durv =>
          cases img with
          | none => simp [add_programme_entry, getField, requiredPresent, except_bind_ok, except_bind_error, beq_iff_eq, hc]
          | some imgv =>
            cases appendFails <;>
              simp [add_programme_entry, getField, requiredPresent, except_bind_ok, except_bind_error, beq_iff_eq, hc]
    · have hc' : ¬ c = "Talks & Conversations" := hc
      cases intl with
      | none => simp [add_programme_entry, getField, requiredPresent, except_bind_ok, except_bind_error, beq_iff_eq, hc']
      | some iv =>
        cases orig with
        | none => simp [add_programme_entry, getField, requiredPresent, except_bind_ok, except_bind_error, beq_iff_eq, hc']
        | some ov =>
          cases yr with
          | none => simp [add_programme_entry, getField, requiredPresent, except_bind_ok, except_bind_error, beq_iff_eq, hc']
          | some yv =>
            cases rt with
            | none => simp [add_programme_entry, getField, requiredPresent, except_bind_ok, except_bind_error, beq_iff_eq, hc']
            | some rv =>
              cases lang with
              | none => simp [add_programme_entry, getField, requiredPresent, except_bind_ok, except_bind_error, beq_iff_eq, hc']
              | some lv =>
                cases ctry with
                | none =>
                  simp [add_programme_entry, getField, requiredPresent, except_bind_ok, except_bind_error, beq_iff_eq, hc']
                | some cv =>
                  cases dir with
                  | none =>
                    simp [add_programme_entry, getField, requiredPresent, except_bind_ok, except_bind_error, beq_iff_eq, hc']
                  | some dv =>
                    cases syn with
                    | none =>
                      simp [add_programme_entry, getField, requiredPresent, except_bind_ok, except_bind_error, beq_iff_eq, hc']
                    | some sv =>
                      cases img with
                      | none =>
                        simp [add_programme_entry, getField, requiredPresent,
                          except_bind_ok, except_bind_error, beq_iff_eq, hc']
                      | some imgv =>
                        cases lbx with
                        | none =>
                          simp [add_programme_entry, getField, requiredPresent,
                            except_bind_ok, except_bind_error, beq_iff_eq, hc']
                        | some bv =>
                          cases appendFails <;>
                            simp [add_programme_entry, getField, requiredPresent,
                              except_bind_ok, except_bind_error, beq_iff_eq, hc']

theorem selRank_lt_iff (x y : Option Bool) :
    selRank x < selRank y ↔ selStrictBefore x y := by
  rcases x with _ | (_ | _) <;> rcases y with _ | (_ | _) <;>
    simp [selRank, selStrictBefore]

theorem selRank_eq_iff (x y : Option Bool) : selRank x = selRank y ↔ x = y := by
  rcases x with _ | (_ | _) <;> rcases y with _ | (_ | _) <;>
    simp [selRank]

theorem avgLex_iff (x y : Option ℚ) (R : Prop) :
    (avgRank x < avgRank y ∨ (avgRank x = avgRank y ∧
      (avgVal x < avgVal y ∨ (avgVal x = avgVal y ∧ R))))
    ↔ (avgStrictBefore x y ∨ (x = y ∧ R)) := by
  rcases x with _ | q <;> rcases y with _ | p <;>
    simp [avgRank, avgVal, avgStrictBefore, neg_lt_neg_iff, neg_inj, eq_comm]

/-- The encoded sort key realises exactly the plain-language key order. -/
theorem entryLE_iff_keyOrder (a b : OverviewEntry) : entryLE a b ↔ keyOrder a b := by
  show sortKey a ≤ sortKey b ↔ _
  simp only [sortKey, keyOrder, Prod.Lex.le_iff]
  rw [selRank_lt_iff, selRank_eq_iff, avgLex_iff]
  simp [neg_lt_neg_iff, neg_inj, eq_comm]

theorem sameKeys_entryLE (a b : OverviewEntry) (h : sameKeys a b) : entryLE a b := by
  obtain ⟨h1, h2, h3, h4, h5⟩ := h
  show sortKey a ≤ sortKey b
  simp [sortKey, h1, h2, h3, h4, h5]

theorem sortKey_inj (a b : OverviewEntry) (h : sortKey a = sortKey b) : sameKeys a b := by
  simp only [sortKey, toLex_inj, Prod.mk.injEq] at h
  obtain ⟨h1, h2, h3, h4, h5, h6⟩ := h
  have hsel : a.isSelected = b.isSelected := (selRank_eq_iff _ _).mp h1
  have havg : a.averageScore = b.averageScore := by
    rcases hA : a.averageScore with _ | q <;> rcases hB : b.averageScore with _ | p <;>
      simp_all [avgRank, avgVal, neg_inj]
  exact ⟨hsel, havg, by omega, h5, h6⟩

/-- C2 (amended): the overview ordering is a stable total sort by
descending isSelected, then descending averageScore, then descending year,
then ascending runningTime, then ascending programmeId, with a missing
isSelected or averageScore placed after all present values of its key
(pandas puts NaN last) rather than treated as 0: the result is a
permutation of the input, sorted for the key order, the comparison is
total, two entries are mutually comparable only when all five keys agree,
and a run of entries agreeing on all five keys keeps its original relative
order. -/
theorem rankOrdering_spec (l : List OverviewEntry) :
    (rankOrdering l).Perm l ∧
    List.Sorted entryLE (rankOrdering l) ∧
    (∀ a b : OverviewEntry, entryLE a b ∨ entryLE b a) ∧
    (∀ a b : OverviewEntry, entryLE a b → entryLE b a → sameKeys a b) ∧
    (∀ a b : OverviewEntry, entryLE a b ↔ keyOrder a b) ∧
    (∀ c : List OverviewEntry, c.Pairwise sameKeys → List.Sublist c l →
      List.Sublist c (rankOrdering l)) := by
  refine ⟨List.perm_insertionSort _ _, List.sorted_insertionSort _ _, ?_, ?_, ?_, ?_⟩
  · exact fun a b => le_total (sortKey a) (sortKey b)
  · exact fun a b h h' => sortKey_inj a b (le_antisymm h h')
  · exact entryLE_iff_keyOrder
  · intro c hpair hsub
    exact List.sublist_insertionSort (hpair.imp (fun h => sameKeys_entryLE _ _ h)) hsub

/-- Witness for C2 on a two-entry overview. -/
theorem rankOrdering_spec_witness :
    (rankOrdering [⟨some false, none, 2025, 100, "F001", "C", "I1", "O1"⟩,
        ⟨some false, some 0, 2020, 100, "F002", "C", "I2", "O2"⟩]).Perm
      [⟨some false, none, 2025, 100, "F001", "C", "I1", "O1"⟩,
        ⟨some false, some 0, 2020, 100, "F002", "C", "I2", "O2"⟩] ∧
    List.Sublist [(⟨some false, none, 2025, 100, "F001", "C", "I1", "O1"⟩ : OverviewEntry)]
      (rankOrdering [⟨some false, none, 2025, 100, "F001", "C", "I1", "O1"⟩,
        ⟨some false, some 0, 2020, 100, "F002", "C", "I2", "O2"⟩]) := by
  have h := rankOrdering_spec [⟨some false, none, 2025, 100, "F001", "C", "I1", "O1"⟩,
    ⟨some false, some 0, 2020, 100, "F002", "C", "I2", "O2"⟩]
  exact ⟨h.1, h.2.2.2.2.2 _ (List.pairwise_singleton _ _)
    ((List.nil_sublist _).cons₂ _)⟩

/-- C2 counterexample to the claim as stated: with a missing average
treated as 0 the unscored entry (year 2025) would precede the zero-average
entry (year 2020), but the code sorts the present zero average first and
the missing one last. -/
theorem rankOrdering_claim_counterexample :
    rankOrdering [⟨some false, none, 2025, 100, "F001", "C", "I1", "O1"⟩,
        ⟨some false, some 0, 2020, 100, "F002", "C", "I2", "O2"⟩]
      = [⟨some false, some 0, 2020, 100, "F002", "C", "I2", "O2"⟩,
          ⟨some false, none, 2025, 100, "F001", "C", "I1", "O1"⟩] ∧
    rankOrderingClaimed [⟨some false, none, 2025, 100, "F001", "C", "I1", "O1"⟩,
        ⟨some false, some 0, 2020, 100, "F002", "C", "I2", "O2"⟩]
      = [⟨some false, none, 2025, 100, "F001", "C", "I1", "O1"⟩,
          ⟨some false, some 0, 2020, 100, "F002", "C", "I2", "O2"⟩] := by
  decide

end IFFK
